import Mathlib

/-!
Shallow embedding of the TradeLink trading-journal core: the trade data
model (src/shared/schema.ts), the server statistics engine and the
close/split route (src/server, routes file), the master-ledger page
pipeline (src/client/src/pages/master-ledger.tsx), the active-journal
statistics (src/client/src/pages/active-journal.tsx) and the dashboard
master-ledger component (src/client/src/components/master-ledger.tsx).

Conventions of the embedding:
- Decimal database columns (numeric) are exact decimal strings in the
  source and are converted with Number(...) at computation time; they are
  modelled as rationals.
- Timestamps are modelled as integer epoch milliseconds.
- Nullable columns are Option values.  In the source a numeric column
  arrives as a decimal string, so raw-field truthiness tests such as
  (t.stopLoss ? ... : null) are null tests (the string "0" is truthy),
  while tests on already-converted numbers such as (currentPrice ? ... )
  are false for both null and 0; both are modelled faithfully below.
- JavaScript Array.prototype.sort with a comparator is a stable
  comparison sort; it is modelled with List.insertionSort, which is a
  stable sort and computes by kernel reduction.
-/

inductive Side where
  | LONG
  | SHORT
  deriving Repr, DecidableEq

inductive Status where
  | OPEN
  | CLOSED
  deriving Repr, DecidableEq

/-- Row of the trades table of src/shared/schema.ts.  The userId and
isApproved columns play no role in any computation modelled here and are
omitted; the column named type is rendered tradeType. -/
structure Trade where
  id : Nat
  ticker : String
  tradeType : String
  side : Side
  status : Status
  quantity : ℚ
  buyPrice : ℚ
  sellPrice : Option ℚ
  entryDate : Int
  exitDate : Option Int
  fees : ℚ
  stopLoss : Option ℚ
  targetPrice : Option ℚ
  leverage : Option ℚ
  strategy : Option String
  sector : Option String
  fundamentalReason : Option String
  notes : Option String
  chartUrl : Option String
  parentTradeId : Option Nat
  deriving Repr, DecidableEq

/-- Number(x.toFixed(2)) of the source: rounding to two decimal places,
idealised over the rationals. -/
def round2 (q : ℚ) : ℚ := (round (q * 100) : ℤ) / 100

/-- Per-trade profit and loss of the server stats route (GET /api/stats):
(Number(t.sellPrice) - Number(t.buyPrice)) * Number(t.quantity) -
Number(t.fees || 0).  Number(null) is 0, hence the getD 0; the side field
is not consulted. -/
def statsPnl (t : Trade) : ℚ :=
  (t.sellPrice.getD 0 - t.buyPrice) * t.quantity - t.fees

/-- R-multiple of one equity-curve sample in the server stats route.  The
guard in the source is (t.buyPrice && t.stopLoss) on the raw column
strings: buyPrice is a non-empty decimal string and therefore always
truthy, stopLoss is truthy exactly when it is not null. -/
def statsRMultiple (t : Trade) (pnl : ℚ) : ℚ :=
  match t.stopLoss with
  | some sl =>
      let initialRiskPerUnit := |t.buyPrice - sl|
      if initialRiskPerUnit > 0 then pnl / (initialRiskPerUnit * t.quantity) else 0
  | none => 0

structure EquityPoint where
  date : Int
  cumulativePnL : ℚ
  rMultiple : ℚ
  ticker : String
  deriving Repr, DecidableEq

/-- Accumulator of the stats route map over sorted closed trades. -/
structure StatsAcc where
  cumulativePnL : ℚ
  totalWins : Nat
  grossProfit : ℚ
  grossLoss : ℚ
  deriving Repr, DecidableEq

def statsAcc0 : StatsAcc := ⟨0, 0, 0, 0⟩

/-- One iteration of the equityCurve map in the server stats route. -/
def statsStep (acc : StatsAcc) (t : Trade) : StatsAcc × EquityPoint :=
  let pnl := statsPnl t
  let cum := acc.cumulativePnL + pnl
  let acc' : StatsAcc :=
    { cumulativePnL := cum
      totalWins := if pnl > 0 then acc.totalWins + 1 else acc.totalWins
      grossProfit := if pnl > 0 then acc.grossProfit + pnl else acc.grossProfit
      grossLoss := if pnl < 0 then acc.grossLoss + |pnl| else acc.grossLoss }
  (acc',
    { date := t.entryDate
      cumulativePnL := round2 cum
      rMultiple := round2 (statsRMultiple t pnl)
      ticker := t.ticker })

def statsRun (acc : StatsAcc) : List Trade → StatsAcc × List EquityPoint
  | [] => (acc, [])
  | t :: ts =>
      let (acc', p) := statsStep acc t
      let (accF, ps) := statsRun acc' ts
      (accF, p :: ps)

def closedTradesOf (trades : List Trade) : List Trade :=
  trades.filter (fun t => t.status = Status.CLOSED)

/-- Ascending sort by entry date, [...ts].sort((a, b) => a - b) over the
timestamps in the source. -/
def sortByEntryDate (trades : List Trade) : List Trade :=
  trades.insertionSort (fun a b => a.entryDate ≤ b.entryDate)

def serverClosedSorted (trades : List Trade) : List Trade :=
  sortByEntryDate (closedTradesOf trades)

def serverFinalAcc (trades : List Trade) : StatsAcc :=
  (statsRun statsAcc0 (serverClosedSorted trades)).1

def serverEquityCurve (trades : List Trade) : List EquityPoint :=
  (statsRun statsAcc0 (serverClosedSorted trades)).2

/-- Profit factor of the server stats route: grossLoss === 0 ?
(grossProfit > 0 ? 99.9 : 0) : Number((grossProfit / grossLoss).toFixed(2)). -/
def serverProfitFactor (trades : List Trade) : ℚ :=
  let acc := serverFinalAcc trades
  if acc.grossLoss = 0 then (if acc.grossProfit > 0 then 999/10 else 0)
  else round2 (acc.grossProfit / acc.grossLoss)

/-- One iteration of the max-drawdown forEach in the server stats route;
the state is the pair (maxPnL, maxDD), both seeded at 0. -/
def ddStep (st : ℚ × ℚ) (v : ℚ) : ℚ × ℚ :=
  let maxPnL := if v > st.1 then v else st.1
  let dd := if maxPnL > 0 then (maxPnL - v) / maxPnL else 0
  (maxPnL, if dd > st.2 then dd else st.2)

/-- Maximum drawdown of a list of cumulative-P&L values, before the final
percentage conversion. -/
def maxDDvals (l : List ℚ) : ℚ := (l.foldl ddStep (0, 0)).2

/-- maxDrawdown field of the stats response:
Number((maxDD * 100).toFixed(2)). -/
def serverMaxDrawdown (trades : List Trade) : ℚ :=
  round2 (maxDDvals ((serverEquityCurve trades).map (fun p => p.cumulativePnL)) * 100)

/-- Modelled from the spec: the drawdown sequence of a cumulative-P&L
curve, with the running peak updated forward, each drawdown being
(peak - current) / peak when the peak is positive and 0 otherwise. -/
def specDrawdowns (peak : ℚ) : List ℚ → List ℚ
  | [] => []
  | v :: vs =>
      let peak' := max peak v
      (if peak' > 0 then (peak' - v) / peak' else 0) :: specDrawdowns peak' vs

/-- Modelled from the spec: gross profit sum, the sum of the positive
per-trade net P&L values over the closed trades in chronological order. -/
def specGrossProfitSum (trades : List Trade) : ℚ :=
  (((serverClosedSorted trades).map statsPnl).filter (fun p => p > 0)).sum

/-- Modelled from the spec: absolute value of the gross loss sum, the sum
of the negative per-trade net P&L values over the closed trades. -/
def specGrossLossSum (trades : List Trade) : ℚ :=
  |(((serverClosedSorted trades).map statsPnl).filter (fun p => p < 0)).sum|

/-! Client master-ledger page, src/client/src/pages/master-ledger.tsx. -/

/-- Inputs the page reads besides the trade list: live market prices per
ticker, manual CMP overrides per trade id, and the current time used for
open-position holding days. -/
structure PriceCtx where
  live : String → Option ℚ
  manual : Nat → Option ℚ
  now : Int

inductive PnlFilter where
  | all
  | profit
  | loss
  deriving Repr, DecidableEq

/-- Filter controls of the page; none stands for the ALL setting. -/
structure LedgerFilters where
  search : String
  statusFilter : Option Status
  typeFilter : Option String
  dateFrom : Option Int
  dateTo : Option Int
  pnlFilter : PnlFilter
  deriving Repr

/-- Case-insensitive substring test, t.ticker.toLowerCase().includes(search.toLowerCase()). -/
def containsSub (hay needle : String) : Bool :=
  decide (needle.toLower.toList <:+: hay.toLower.toList)

/-- Side-aware closed-trade P&L used by the P&L filter of the page
(PROFIT / LOSS options); Number(null) is 0 for a missing sellPrice. -/
def filterPnl (t : Trade) : ℚ :=
  if t.side = Side.SHORT then (t.buyPrice - t.sellPrice.getD 0) * t.quantity - t.fees
  else (t.sellPrice.getD 0 - t.buyPrice) * t.quantity - t.fees

/-- Conjunction of the five filter predicates of the page. -/
def tradeMatches (f : LedgerFilters) (t : Trade) : Bool :=
  let matchesSearch := containsSub t.ticker f.search
  let matchesStatus := match f.statusFilter with
    | none => true
    | some s => t.status = s
  let matchesType := match f.typeFilter with
    | none => true
    | some ty => t.tradeType = ty
  let matchesDate :=
    (match f.dateFrom with | none => true | some d => t.entryDate ≥ d) &&
    (match f.dateTo with | none => true | some d => t.entryDate ≤ d)
  let matchesPnl :=
    if f.pnlFilter ≠ PnlFilter.all ∧ t.status = Status.CLOSED then
      match f.pnlFilter with
      | PnlFilter.profit => filterPnl t > 0
      | PnlFilter.loss => filterPnl t < 0
      | PnlFilter.all => true
    else true
  matchesSearch && matchesStatus && matchesType && matchesDate && matchesPnl

/-- Trades of the active segment: t.type !== "LONG_TERM_HOLDING". -/
def activeTrades (trades : List Trade) : List Trade :=
  trades.filter (fun t => t.tradeType ≠ "LONG_TERM_HOLDING")

def filteredTrades (f : LedgerFilters) (trades : List Trade) : List Trade :=
  (activeTrades trades).filter (tradeMatches f)

/-- One ledger row of the initialData memo of the page.  The formatted
date strings are display text and are not modelled; entryDateObj is the
underlying timestamp, used by the display sort. -/
structure Row where
  no : Nat
  entryDateObj : Int
  strategy : String
  stock : String
  qty : ℚ
  entry : ℚ
  sl : Option ℚ
  slPercent : Option ℚ
  rpt : Option ℚ
  exitQty : Option ℚ
  exitPrice : Option ℚ
  cmp : Option ℚ
  tradeGainPercent : Option ℚ
  rMultiple : Option ℚ
  holdingDays : Option Int
  grossProfit : Option ℚ
  brokerage : ℚ
  netProfit : Option ℚ
  accountValue : ℚ
  notes : String
  status : Status
  tradeType : String
  trade : Trade
  deriving Repr, DecidableEq

/-- Body of the initialData map for one trade, given the running account
value accumulated so far.  Truthiness notes: stopLoss and sellPrice are
null tests on raw column strings (so a stored 0 survives as some 0),
while the guards (stopLoss && entryPrice), (currentPrice ? ...) and
(rpt && rpt > 0) test already-converted numbers, where 0 is falsy. -/
def ledgerRow (ctx : PriceCtx) (idx : Nat) (run : ℚ) (t : Trade) : Row :=
  let entryPrice := t.buyPrice
  let exitPrice := t.sellPrice
  let quantity := t.quantity
  let stopLoss := t.stopLoss
  let fees := t.fees
  let livePrice := ctx.live t.ticker
  let manualCmp := ctx.manual t.id
  let cmpValue := livePrice.orElse (fun _ => manualCmp)
  let currentPrice := if t.status = Status.OPEN then cmpValue else exitPrice
  let slPercent := match stopLoss with
    | some sl => if sl ≠ 0 ∧ entryPrice ≠ 0
        then some (((entryPrice - sl) / entryPrice) * 100) else none
    | none => none
  let rpt := match stopLoss with
    | some sl => if sl ≠ 0 then some |(entryPrice - sl) * quantity| else none
    | none => none
  let grossPnl := match currentPrice with
    | some cp => if cp ≠ 0
        then some (if t.side = Side.SHORT
          then (entryPrice - cp) * quantity
          else (cp - entryPrice) * quantity)
        else none
    | none => none
  let netProfit := grossPnl.map (fun g => g - fees)
  let entryValue := entryPrice * quantity
  let tradeGainPercent := match netProfit with
    | some np => if entryValue > 0 then some (np / entryValue * 100) else none
    | none => none
  let rMultiple := match netProfit, rpt with
    | some np, some r => if r > 0 then some (np / r) else none
    | _, _ => none
  let exitD := match t.exitDate with
    | some d => some d
    | none => if t.status = Status.OPEN then some ctx.now else none
  let holdingDays := exitD.map (fun d => (d - t.entryDate) / 86400000)
  { no := idx + 1
    entryDateObj := t.entryDate
    strategy := t.strategy.getD "-"
    stock := t.ticker
    qty := quantity
    entry := entryPrice
    sl := stopLoss
    slPercent := slPercent
    rpt := rpt
    exitQty := if t.status = Status.CLOSED then some quantity else none
    exitPrice := exitPrice
    cmp := cmpValue
    tradeGainPercent := tradeGainPercent
    rMultiple := rMultiple
    holdingDays := holdingDays
    grossProfit := grossPnl
    brokerage := fees
    netProfit := netProfit
    accountValue := run + netProfit.getD 0
    notes := t.notes.getD "-"
    status := t.status
    tradeType := t.tradeType
    trade := t }

/-- Chronological mapping pass of initialData: index counter and running
account value threaded through the rows; the running value grows by the
net profit exactly when it is non-null. -/
def ledgerRows (ctx : PriceCtx) : Nat → ℚ → List Trade → List Row
  | _, _, [] => []
  | idx, run, t :: ts =>
      let row := ledgerRow ctx idx run t
      row :: ledgerRows ctx (idx + 1) row.accountValue ts

/-- initialData of the page: the filtered set sorted chronologically by
entry date, then mapped with the running account value seeded at 0. -/
def initialData (ctx : PriceCtx) (f : LedgerFilters) (trades : List Trade) : List Row :=
  ledgerRows ctx 0 0 (sortByEntryDate (filteredTrades f trades))

/-- JavaScript truthiness of the nullable integer column parentTradeId:
null and 0 are falsy. -/
def jsTruthyId : Option Nat → Bool
  | none => false
  | some n => n ≠ 0

/-- Root-row predicate of the mainInitialData memo:
!r.trade.parentTradeId || !existingTradeIds.has(r.trade.parentTradeId). -/
def rowRoot (ids : List Nat) (r : Row) : Bool :=
  !jsTruthyId r.trade.parentTradeId || !(ids.contains (r.trade.parentTradeId.getD 0))

def existingTradeIds (f : LedgerFilters) (trades : List Trade) : List Nat :=
  (filteredTrades f trades).map Trade.id

/-- mainInitialData of the page: rows whose trade has no parent, or whose
parent id is absent from the filtered set (orphans), kept as root rows. -/
def mainInitialData (ctx : PriceCtx) (f : LedgerFilters) (trades : List Trade) : List Row :=
  (initialData ctx f trades).filter (rowRoot (existingTradeIds f trades))

/-! Display sort of the master-ledger page (spreadsheetData memo). -/

inductive SortDir where
  | asc
  | desc
  deriving Repr, DecidableEq

/-- Sortable column keys of the page; the formatted date-string columns
are display text and are not modelled. -/
inductive ColKey where
  | no
  | entryDate
  | strategy
  | stock
  | qty
  | entry
  | sl
  | slPercent
  | rpt
  | exitQty
  | exitPrice
  | cmp
  | tradeGainPercent
  | rMultiple
  | holdingDays
  | grossProfit
  | brokerage
  | netProfit
  | accountValue
  | notes
  | status
  | tradeType
  deriving Repr, DecidableEq

structure SortConfig where
  key : ColKey
  direction : SortDir
  deriving Repr, DecidableEq

/-- Value a row exposes under one column key: a number, a string, or the
JavaScript null that the comparator sends to the end. -/
inductive SortVal where
  | num (q : ℚ)
  | str (s : String)
  | null
  deriving Repr, DecidableEq

def optNum (o : Option ℚ) : SortVal :=
  match o with
  | some q => SortVal.num q
  | none => SortVal.null

def statusText : Status → String
  | Status.OPEN => "OPEN"
  | Status.CLOSED => "CLOSED"

def colVal (k : ColKey) (r : Row) : SortVal :=
  match k with
  | ColKey.no => SortVal.num r.no
  | ColKey.entryDate => SortVal.num r.entryDateObj
  | ColKey.strategy => SortVal.str r.strategy
  | ColKey.stock => SortVal.str r.stock
  | ColKey.qty => SortVal.num r.qty
  | ColKey.entry => SortVal.num r.entry
  | ColKey.sl => optNum r.sl
  | ColKey.slPercent => optNum r.slPercent
  | ColKey.rpt => optNum r.rpt
  | ColKey.exitQty => optNum r.exitQty
  | ColKey.exitPrice => optNum r.exitPrice
  | ColKey.cmp => optNum r.cmp
  | ColKey.tradeGainPercent => optNum r.tradeGainPercent
  | ColKey.rMultiple => optNum r.rMultiple
  | ColKey.holdingDays => optNum (r.holdingDays.map (fun d => (d : ℚ)))
  | ColKey.grossProfit => optNum r.grossProfit
  | ColKey.brokerage => SortVal.num r.brokerage
  | ColKey.netProfit => optNum r.netProfit
  | ColKey.accountValue => SortVal.num r.accountValue
  | ColKey.notes => SortVal.str r.notes
  | ColKey.status => SortVal.str (statusText r.status)
  | ColKey.tradeType => SortVal.str r.tradeType

/-- Strict comparison step of the page comparator, after the equality and
null checks: strings are lowercased before comparing. -/
def sortValLt : SortVal → SortVal → Bool
  | SortVal.num a, SortVal.num b => a < b
  | SortVal.str a, SortVal.str b => a.toLower < b.toLower
  | _, _ => false

/-- Comparator of the spreadsheetData sort: equal values give 0, null
sorts to the end regardless of direction, otherwise -1 / 1 by the (lower
cased) comparison, negated for descending order. -/
def jsCompare (dirIsAsc : Bool) (a b : SortVal) : Int :=
  if a = b then 0
  else if a = SortVal.null then 1
  else if b = SortVal.null then -1
  else
    let comparison : Int := if sortValLt a b then -1 else 1
    if dirIsAsc then comparison else -comparison

/-- Display sort pass: identity when no sort is configured, otherwise a
stable sort of a copy of the rows by the comparator. -/
def sortRows (cfg : Option SortConfig) (rows : List Row) : List Row :=
  match cfg with
  | none => rows
  | some c =>
      rows.insertionSort (fun a b =>
        jsCompare (c.direction = SortDir.asc) (colVal c.key a) (colVal c.key b) ≤ 0)

/-- spreadsheetData of the page: the root rows permuted by the display
sort; the account values were already fixed by the chronological pass. -/
def spreadsheetData (ctx : PriceCtx) (f : LedgerFilters) (trades : List Trade)
    (cfg : Option SortConfig) : List Row :=
  sortRows cfg (mainInitialData ctx f trades)

/-! Client active-journal page, src/client/src/pages/active-journal.tsx:
cumulative P&L data and the profit factor shown there. -/

/-- Per-trade P&L values of the pnlData memo: active trades sorted by
entry date, closed ones kept, each mapped to
(Number(t.sellPrice) - Number(t.buyPrice)) * qty - fees; the running
cumulative field is carried alongside in the source but only the pnl
field feeds the profit factor. -/
def ajPnls (trades : List Trade) : List ℚ :=
  ((sortByEntryDate (activeTrades trades)).filter
    (fun t => t.status = Status.CLOSED)).map statsPnl

def ajGrossProfit (trades : List Trade) : ℚ :=
  ((ajPnls trades).filter (fun p => p > 0)).sum

def ajGrossLoss (trades : List Trade) : ℚ :=
  |((ajPnls trades).filter (fun p => p < 0)).sum|

/-- Profit factor of the active-journal page: grossLoss === 0 ?
(grossProfit > 0 ? 99 : 0) : grossProfit / grossLoss.  Note the sentinel
here is 99, not the 99.9 of the server stats route, and no rounding is
applied to the quotient. -/
def ajProfitFactor (trades : List Trade) : ℚ :=
  if ajGrossLoss trades = 0 then (if ajGrossProfit trades > 0 then 99 else 0)
  else ajGrossProfit trades / ajGrossLoss trades

/-! Dashboard master-ledger component,
src/client/src/components/master-ledger.tsx. -/

/-- mainTrades of the component: trades.filter(t => !t.parentTradeId).
Only a null (or 0) parent reference makes a root row here; an orphan
child keeps its dangling parent id and is excluded. -/
def compMainTrades (trades : List Trade) : List Trade :=
  trades.filter (fun t => !jsTruthyId t.parentTradeId)

def compChildTrades (trades : List Trade) : List Trade :=
  trades.filter (fun t => jsTruthyId t.parentTradeId)

structure CompRow where
  trade : Trade
  pnl : ℚ
  deriving Repr, DecidableEq

/-- processedTrades of the component: each main trade paired with the sum
of the child P&L values ((sellPrice - buyPrice) * qty - fees per child).
The optional display sort (a stable comparator sort of this same list) is
omitted from the model: it permutes the rows and the claims below concern
only which trades appear. -/
def compProcessedTrades (trades : List Trade) : List CompRow :=
  (compMainTrades trades).map (fun t =>
    { trade := t
      pnl := (((compChildTrades trades).filter
        (fun c => c.parentTradeId = some t.id)).map statsPnl).sum })

/-! Close/split operation, POST /api/trades/:id/close of the server
routes file, over the trade record store of src/server/storage.ts. -/

/-- Trade record store: the trades table plus the next serial id the
database will assign on insert. -/
structure Store where
  trades : List Trade
  nextId : Nat
  deriving Repr, DecidableEq

/-- storage.getTrade(id): the row whose id matches. -/
def getTrade (s : Store) (id : Nat) : Option Trade :=
  s.trades.find? (fun t => t.id = id)

/-- storage.createTrade(fields): insert with a fresh serial id, returning
the created row. -/
def createTrade (s : Store) (t : Trade) : Store × Trade :=
  let created := { t with id := s.nextId }
  ({ trades := s.trades ++ [created], nextId := s.nextId + 1 }, created)

/-- storage.updateTrade(id, partial) specialised to the only partial
update the close handler issues, the quantity field. -/
def updateTradeQuantity (s : Store) (id : Nat) (q : ℚ) : Store :=
  { s with trades := s.trades.map (fun t => if t.id = id then { t with quantity := q } else t) }

/-- storage.deleteTrade(id). -/
def deleteTrade (s : Store) (id : Nat) : Store :=
  { s with trades := s.trades.filter (fun t => t.id ≠ id) }

/-- Body of the close request after the zod schema parse and the
Number(...) conversions of the handler; fees defaults to 0 when absent. -/
structure CloseReq where
  quantity : ℚ
  sellPrice : ℚ
  exitDate : Int
  fees : ℚ
  deriving Repr, DecidableEq

inductive CloseOutcome where
  | notFound
  | validationError
  | ok (created : Trade)
  deriving Repr, DecidableEq

/-- POST /api/trades/:id/close.  Looks up the trade (404 when absent),
rejects when the sell quantity exceeds the stored quantity (400, no
mutation), otherwise creates the CLOSED child copying the original row
with the sold quantity, the given sell price and exit date, accumulated
fees, and parentTradeId pointing at the original; then deletes the
original on a full sell or shrinks its quantity on a partial sell. -/
def closeTrade (s : Store) (id : Nat) (req : CloseReq) : CloseOutcome × Store :=
  match getTrade s id with
  | none => (CloseOutcome.notFound, s)
  | some originalTrade =>
      let sellQty := req.quantity
      let originalQty := originalTrade.quantity
      if sellQty > originalQty then (CloseOutcome.validationError, s)
      else
        let created := createTrade s
          { originalTrade with
            quantity := req.quantity
            sellPrice := some req.sellPrice
            exitDate := some req.exitDate
            status := Status.CLOSED
            fees := originalTrade.fees + req.fees
            parentTradeId := some id }
        let s2 := if sellQty = originalQty then deleteTrade created.1 id
                  else updateTradeQuantity created.1 id (originalQty - sellQty)
        (CloseOutcome.ok created.2, s2)

/-- Sequence of close requests, all aimed at the same trade id. -/
def applyCloses (s : Store) (id : Nat) : List CloseReq → Store
  | [] => s
  | r :: rs => applyCloses (closeTrade s id r).2 id rs

/-- Sum of the quantities of the child records of a root id, the soldQty
of the campaign aggregator (GET /api/trades/:id/campaign). -/
def childQtySum (s : Store) (rootId : Nat) : ℚ :=
  ((s.trades.filter (fun t => t.parentTradeId = some rootId)).map Trade.quantity).sum

/-- Stored remaining quantity of the root, 0 once it has been deleted. -/
def rootQty (s : Store) (rootId : Nat) : ℚ :=
  match getTrade s rootId with
  | some t => t.quantity
  | none => 0

/-- originalQty recovered by the campaign aggregator: soldQty plus the
current holding of the root row. -/
def campaignTotal (s : Store) (rootId : Nat) : ℚ :=
  childQtySum s rootId + rootQty s rootId

/-- Well-formedness the database guarantees: ids are unique and below the
next serial value. -/
def StoreWF (s : Store) : Prop :=
  (∀ t ∈ s.trades, t.id < s.nextId) ∧ (s.trades.map Trade.id).Nodup

/-- Campaign invariant carried through a sequence of close operations on
the root id r: the store stays well formed, every row carrying id r is a
root (no self-parenting), the aggregator total soldQty + currentQty stays
at q0, and a still-present root either has its original quantity orig
(no successful close has touched it yet) or a strictly positive remaining
quantity (so the remainder reaches 0 only by deletion of the root). -/
def CampInv (r : Nat) (q0 orig : ℚ) (s : Store) : Prop :=
  StoreWF s ∧
  (∀ t ∈ s.trades, t.id = r → t.parentTradeId = none) ∧
  campaignTotal s r = q0 ∧
  (∀ t, getTrade s r = some t → t.quantity = orig ∨ 0 < t.quantity)

/-! Concrete example data used by the witness and counterexample
theorems below. -/

/-- Open 10-lot futures long at 100, no stop, no fees. -/
def baseTrade : Trade :=
  { id := 1, ticker := "ES", tradeType := "FUTURES", side := Side.LONG, status := Status.OPEN,
    quantity := 10, buyPrice := 100, sellPrice := none, entryDate := 0, exitDate := none,
    fees := 0, stopLoss := none, targetPrice := none, leverage := none, strategy := none,
    sector := none, fundamentalReason := none, notes := none, chartUrl := none,
    parentTradeId := none }

/-- No live prices, no manual overrides, clock at epoch. -/
def exCtx : PriceCtx := { live := fun _ => none, manual := fun _ => none, now := 0 }

/-- Every filter at its ALL / empty default. -/
def exFilters : LedgerFilters :=
  { search := "", statusFilter := none, typeFilter := none, dateFrom := none, dateTo := none,
    pnlFilter := PnlFilter.all }

/-- Ledger row produced for baseTrade under exCtx: everything price
dependent is null and the running account value stays 0. -/
def exRowOpen : Row :=
  { no := 1, entryDateObj := 0, strategy := "-", stock := "ES", qty := 10, entry := 100,
    sl := none, slPercent := none, rpt := none, exitQty := none, exitPrice := none,
    cmp := none, tradeGainPercent := none, rMultiple := none, holdingDays := some 0,
    grossProfit := none, brokerage := 0, netProfit := none, accountValue := 0,
    notes := "-", status := Status.OPEN, tradeType := "FUTURES", trade := baseTrade }

/-- Closed long of the sign-convention example: entry 100, exit 110,
qty 10, fees 5. -/
def exLongC1 : Trade :=
  { baseTrade with status := Status.CLOSED, sellPrice := some 110, fees := 5 }

/-- Closed short of the sign-convention example: entry 100, exit 90,
qty 10, fees 5. -/
def exShortC1 : Trade :=
  { baseTrade with side := Side.SHORT, status := Status.CLOSED, sellPrice := some 90, fees := 5 }

/-- Profitable closed trade: entry 100, exit 110, qty 10, no fees. -/
def exWin : Trade :=
  { baseTrade with status := Status.CLOSED, sellPrice := some 110, exitDate := some 50 }

/-- Child record whose parent id 99 matches no present trade. -/
def exOrphan : Trade :=
  { baseTrade with
    id := 5
    status := Status.CLOSED
    sellPrice := some 110
    exitDate := some 50
    parentTradeId := some 99 }

/-- Store holding only the open root baseTrade. -/
def exStoreOpen : Store := { trades := [baseTrade], nextId := 2 }

/-- Store holding one CLOSED root with remaining quantity 2. -/
def exStoreClosed : Store :=
  { trades := [{ baseTrade with
      status := Status.CLOSED
      quantity := 2
      sellPrice := some 110
      exitDate := some 50 }]
    nextId := 2 }

/-- Store holding one open root whose stored quantity is 0. -/
def exStoreZero : Store := { trades := [{ baseTrade with quantity := 0 }], nextId := 2 }

def exReq4 : CloseReq := { quantity := 4, sellPrice := 120, exitDate := 10, fees := 0 }

def exReq6 : CloseReq := { quantity := 6, sellPrice := 130, exitDate := 20, fees := 0 }

def exReq1 : CloseReq := { quantity := 1, sellPrice := 120, exitDate := 60, fees := 0 }

def exReqTooBig : CloseReq := { quantity := 11, sellPrice := 120, exitDate := 10, fees := 0 }

def exReqZero : CloseReq := { quantity := 0, sellPrice := 50, exitDate := 5, fees := 0 }

def exReqNeg : CloseReq := { quantity := -3, sellPrice := 50, exitDate := 5, fees := 0 }

/-- Quantity sum of the child records of a root inside a raw trade list;
childQtySum unfolds to this on the trades field of the store. -/
def childSumL (l : List Trade) (r : Nat) : ℚ :=
  ((l.filter (fun t => t.parentTradeId = some r)).map Trade.quantity).sum

/-- Child record created by the close handler: every field of the
original row copied, with the sold quantity, given sell price and exit
date, CLOSED status, accumulated fees, the parent back-reference, and a
fresh serial id. -/
def closedChild (s : Store) (id : Nat) (req : CloseReq) (root : Trade) : Trade :=
  { root with
    id := s.nextId
    quantity := req.quantity
    sellPrice := some req.sellPrice
    exitDate := some req.exitDate
    status := Status.CLOSED
    fees := root.fees + req.fees
    parentTradeId := some id }

/-! Helper lemmas. -/

theorem toLower_blank : "".toLower = "" := by
  rw [String.toLower, String.map, String.mapAux]
  simp [String.atEnd]
  intro h
  exact absurd rfl h

theorem containsSub_blank (hay : String) : containsSub hay "" = true := by
  simp [containsSub, toLower_blank]

theorem ledgerRow_accountValue (ctx : PriceCtx) (idx : Nat) (run : ℚ) (t : Trade) :
    (ledgerRow ctx idx run t).accountValue = run + (ledgerRow ctx idx run t).netProfit.getD 0 :=
  rfl

theorem ledgerRows_acc (ctx : PriceCtx) (l : List Trade) :
    ∀ (idx : Nat) (run : ℚ) (j : Nat) (r : Row),
      (ledgerRows ctx idx run l).get? j = some r →
      r.accountValue =
        run + (((ledgerRows ctx idx run l).take (j + 1)).map (fun x => x.netProfit.getD 0)).sum := by
  induction l with
  | nil => intro idx run j r h; simp [ledgerRows] at h
  | cons t ts ih =>
      intro idx run j r h
      cases j with
      | zero =>
          simp only [ledgerRows, List.get?_cons_zero, Option.some.injEq] at h
          subst h
          rw [ledgerRow_accountValue]
          simp only [ledgerRows, List.take_succ_cons, List.take_zero, List.map_cons,
            List.map_nil, List.sum_cons, List.sum_nil]
          ring
      | succ j =>
          simp only [ledgerRows, List.get?_cons_succ] at h
          have hih := ih (idx + 1) ((ledgerRow ctx idx run t).accountValue) j r h
          simp only [ledgerRows, List.take_succ_cons, List.map_cons, List.sum_cons]
          rw [hih, ledgerRow_accountValue]
          ring

theorem sortRows_perm (cfg : Option SortConfig) (rows : List Row) :
    List.Perm (sortRows cfg rows) rows := by
  cases cfg with
  | none => exact List.Perm.refl rows
  | some c => exact List.perm_insertionSort _ rows

/-- C5: the display sort only permutes already-built ledger rows, so under
every sort configuration the rows (with their accountValue fields) are the
same multiset as the unsorted root rows, and every row of the
chronological pass carries as accountValue the running sum of the net
profits (0 when null) of the rows up to and including it, seeded at 0. -/
theorem accountValue_sort_invariant (ctx : PriceCtx) (f : LedgerFilters) (trades : List Trade) :
    (∀ cfg cfg' : Option SortConfig,
      List.Perm (spreadsheetData ctx f trades cfg) (spreadsheetData ctx f trades cfg')) ∧
    (∀ (cfg : Option SortConfig) (r : Row),
      r ∈ spreadsheetData ctx f trades cfg ↔ r ∈ mainInitialData ctx f trades) ∧
    (∀ (j : Nat) (r : Row), (initialData ctx f trades).get? j = some r →
      r.accountValue =
        (((initialData ctx f trades).take (j + 1)).map (fun x => x.netProfit.getD 0)).sum) := by
  refine ⟨?_, ?_, ?_⟩
  · intro cfg cfg'
    exact (sortRows_perm cfg _).trans (sortRows_perm cfg' _).symm
  · intro cfg r
    exact (sortRows_perm cfg _).mem_iff
  · intro j r h
    have hh := ledgerRows_acc ctx (sortByEntryDate (filteredTrades f trades)) 0 0 j r h
    simpa [initialData] using hh

/-- Witness for C5 at a one-trade ledger: the single row has account
value 0, the running sum of its null net profit. -/
theorem accountValue_sort_invariant_witness :
    (initialData exCtx exFilters [baseTrade]).get? 0 = some exRowOpen ∧
    exRowOpen.accountValue =
      (((initialData exCtx exFilters [baseTrade]).take 1).map (fun x => x.netProfit.getD 0)).sum := by
  have h1 : filteredTrades exFilters [baseTrade] = [baseTrade] := by
    simp [filteredTrades, activeTrades, tradeMatches, containsSub_blank, exFilters, baseTrade]
  have h0 : (initialData exCtx exFilters [baseTrade]).get? 0 = some exRowOpen := by
    simp only [initialData, h1]
    simp [sortByEntryDate, List.insertionSort, List.orderedInsert, ledgerRows, ledgerRow,
      exCtx, baseTrade, exRowOpen]
  exact ⟨h0, (accountValue_sort_invariant exCtx exFilters [baseTrade]).2.2 0 exRowOpen h0⟩

theorem if_gt_eq_max (a b : ℚ) : (if b > a then b else a) = max a b := by
  rcases le_or_lt b a with h | h
  · simp [not_lt.mpr h, max_eq_left h]
  · simp [h, max_eq_right h.le]

theorem ddFold (l : List ℚ) :
    ∀ p m : ℚ, (l.foldl ddStep (p, m)).2 = (specDrawdowns p l).foldl max m := by
  induction l with
  | nil => intro p m; simp [specDrawdowns]
  | cons v vs ih =>
      intro p m
      have h1 : ddStep (p, m) v =
          (max p v, max m (if max p v > 0 then (max p v - v) / max p v else 0)) := by
        simp only [ddStep, if_gt_eq_max]
      simp only [List.foldl_cons, specDrawdowns, h1, ih]

/-- C7: the max-drawdown fold of the server stats route computes exactly
the maximum over the curve of the running-peak drawdowns
(peak - current) / peak when the peak is positive and 0 otherwise, the
peak being updated forward from 0; expressed as a percentage (rounded to
two decimals) the curve 100, 200, 150, 250, 100 yields 60, and the
maxDrawdown response field equals the same maximum over the cumulative
P&L values of the equity curve. -/
theorem maxDrawdown_spec :
    (∀ curve : List ℚ, maxDDvals curve = (specDrawdowns 0 curve).foldl max 0) ∧
    round2 (maxDDvals [100, 200, 150, 250, 100] * 100) = 60 ∧
    (∀ trades : List Trade, serverMaxDrawdown trades =
      round2 ((specDrawdowns 0
        ((serverEquityCurve trades).map (fun p => p.cumulativePnL))).foldl max 0 * 100)) := by
  have hmain : ∀ curve : List ℚ, maxDDvals curve = (specDrawdowns 0 curve).foldl max 0 :=
    fun curve => ddFold curve 0 0
  refine ⟨hmain, ?_, ?_⟩
  · norm_num [maxDDvals, ddStep, round2, round_eq]
  · intro trades
    rw [serverMaxDrawdown, hmain]

/-- C9: for an OPEN ledger row the effective current market price is the
live feed price when available, else the manual override, else unset; and
when it is unset the gross P&L, net P&L, gain percentage and R-multiple of
the row are all null (the row is still built, nothing throws). -/
theorem cmp_resolution (ctx : PriceCtx) (idx : Nat) (run : ℚ) (t : Trade)
    (hopen : t.status = Status.OPEN) :
    (∀ p, ctx.live t.ticker = some p → (ledgerRow ctx idx run t).cmp = some p) ∧
    (ctx.live t.ticker = none → (ledgerRow ctx idx run t).cmp = ctx.manual t.id) ∧
    (ctx.live t.ticker = none → ctx.manual t.id = none →
      (ledgerRow ctx idx run t).cmp = none ∧
      (ledgerRow ctx idx run t).grossProfit = none ∧
      (ledgerRow ctx idx run t).netProfit = none ∧
      (ledgerRow ctx idx run t).tradeGainPercent = none ∧
      (ledgerRow ctx idx run t).rMultiple = none) := by
  refine ⟨?_, ?_, ?_⟩
  · intro p hp
    simp [ledgerRow, hp, Option.orElse]
  · intro hl
    cases hm : ctx.manual t.id <;> simp [ledgerRow, hl, hm, Option.orElse]
  · intro hl hm
    simp [ledgerRow, hl, hm, hopen, Option.orElse]

/-- Witness for C9: the open base trade with no live price and no manual
override has an unset CMP and null metrics. -/
theorem cmp_resolution_witness :
    baseTrade.status = Status.OPEN ∧
    exCtx.live baseTrade.ticker = none ∧
    exCtx.manual baseTrade.id = none ∧
    (ledgerRow exCtx 0 0 baseTrade).cmp = none ∧
    (ledgerRow exCtx 0 0 baseTrade).grossProfit = none ∧
    (ledgerRow exCtx 0 0 baseTrade).netProfit = none ∧
    (ledgerRow exCtx 0 0 baseTrade).tradeGainPercent = none ∧
    (ledgerRow exCtx 0 0 baseTrade).rMultiple = none := by
  have h := (cmp_resolution exCtx 0 0 baseTrade rfl).2.2 rfl rfl
  exact ⟨rfl, rfl, rfl, h.1, h.2.1, h.2.2.1, h.2.2.2.1, h.2.2.2.2⟩

/-- C1 counterexample: the server equity curve computes the net P&L of the
CLOSED SHORT trade entry 100, exit 90, qty 10, fees 5 as
(90 - 100) * 10 - 5 = -105, not the side-aware (100 - 90) * 10 - 5 = 95
claimed for the statistics engine. -/
theorem netPnl_equity_short_counterexample :
    (serverEquityCurve [exShortC1]).map (fun p => p.cumulativePnL) = [-105] ∧
    ((-105 : ℚ) ≠ (100 - 90) * 10 - 5) := by
  constructor
  · norm_num [serverEquityCurve, serverClosedSorted, closedTradesOf, sortByEntryDate,
      List.insertionSort, List.orderedInsert, statsRun, statsStep, statsPnl, statsAcc0,
      exShortC1, baseTrade, round2, round_eq]
  · norm_num

/-- C1 amended: the ledger rows of the master-ledger page compute the net
P&L of a CLOSED trade (with a non-zero exit price) side-aware, LONG as
(exit - entry) * qty - fees and SHORT as (entry - exit) * qty - fees, so
both examples (LONG 100 to 110 and SHORT 100 to 90, qty 10, fees 5) show
95 there; the server statistics engine instead ignores the side, so its
equity curve books the SHORT example as -105. -/
theorem netPnl_side_convention (ctx : PriceCtx) (idx : Nat) (run : ℚ) (t : Trade) (e : ℚ)
    (hclosed : t.status = Status.CLOSED) (hsell : t.sellPrice = some e) (hne : e ≠ 0) :
    ((ledgerRow ctx idx run t).netProfit =
      some ((if t.side = Side.SHORT then t.buyPrice - e else e - t.buyPrice) * t.quantity
        - t.fees)) ∧
    (ledgerRow ctx idx run exLongC1).netProfit = some 95 ∧
    (ledgerRow ctx idx run exShortC1).netProfit = some 95 ∧
    (serverEquityCurve [exShortC1]).map (fun p => p.cumulativePnL) = [-105] := by
  refine ⟨?_, ?_, ?_, ?_⟩
  · cases hside : t.side <;>
      simp [ledgerRow, hclosed, hsell, hne, hside, sub_mul]
  · simp only [ledgerRow, exLongC1, baseTrade, reduceCtorEq, if_false, reduceIte]
    norm_num
  · simp only [ledgerRow, exShortC1, baseTrade, reduceCtorEq, if_false, reduceIte]
    norm_num
  · norm_num [serverEquityCurve, serverClosedSorted, closedTradesOf, sortByEntryDate,
      List.insertionSort, List.orderedInsert, statsRun, statsStep, statsPnl, statsAcc0,
      exShortC1, baseTrade, round2, round_eq]

/-- Witness for C1 at the SHORT example trade. -/
theorem netPnl_side_convention_witness :
    exShortC1.status = Status.CLOSED ∧ exShortC1.sellPrice = some 90 ∧ (90 : ℚ) ≠ 0 ∧
    (ledgerRow exCtx 0 0 exShortC1).netProfit =
      some ((if exShortC1.side = Side.SHORT then exShortC1.buyPrice - 90
        else 90 - exShortC1.buyPrice) * exShortC1.quantity - exShortC1.fees) := by
  have h := netPnl_side_convention exCtx 0 0 exShortC1 90 rfl rfl (by norm_num)
  exact ⟨rfl, rfl, by norm_num, h.1⟩

theorem statsRun_fst_grossProfit (l : List Trade) :
    ∀ acc : StatsAcc,
      ((statsRun acc l).1).grossProfit =
        acc.grossProfit + ((l.map statsPnl).filter (fun p => p > 0)).sum := by
  induction l with
  | nil => intro acc; simp [statsRun]
  | cons t ts ih =>
      intro acc
      simp only [statsRun, statsStep]
      rw [ih]
      by_cases h : statsPnl t > 0
      · simp [h, List.filter_cons]
        ring
      · simp [h, List.filter_cons]

theorem statsRun_fst_grossLoss (l : List Trade) :
    ∀ acc : StatsAcc,
      ((statsRun acc l).1).grossLoss =
        acc.grossLoss + (((l.map statsPnl).filter (fun p => p < 0)).map (fun p => |p|)).sum := by
  induction l with
  | nil => intro acc; simp [statsRun]
  | cons t ts ih =>
      intro acc
      simp only [statsRun, statsStep]
      rw [ih]
      by_cases h : statsPnl t < 0
      · simp [h, not_lt.mpr h.le, List.filter_cons]
        ring
      · by_cases h2 : statsPnl t > 0
        · simp [h, h2, List.filter_cons]
        · simp [h, h2, List.filter_cons]

theorem filter_neg_sum_nonpos (l : List ℚ) : (l.filter (fun p => p < 0)).sum ≤ 0 := by
  induction l with
  | nil => simp
  | cons x xs ih =>
      by_cases h : x < 0
      · simp [List.filter_cons, h]
        linarith [ih]
      · simp [List.filter_cons, h, ih]

theorem sum_abs_filter_neg (l : List ℚ) :
    ((l.filter (fun p => p < 0)).map (fun p => |p|)).sum = |(l.filter (fun p => p < 0)).sum| := by
  induction l with
  | nil => simp
  | cons x xs ih =>
      by_cases h : x < 0
      · simp only [List.filter_cons, h, decide_True, if_true, List.map_cons, List.sum_cons]
        rw [ih, abs_of_neg h]
        have hS : (xs.filter (fun p => p < 0)).sum ≤ 0 := filter_neg_sum_nonpos xs
        rw [abs_of_nonpos hS, abs_of_nonpos (by linarith : x + (xs.filter (fun p => p < 0)).sum ≤ 0)]
        ring
      · simp [List.filter_cons, h, ih]

/-- C6 counterexample: with a single winning closed trade the server
stats route reports profit factor 99.9 while the active-journal page,
another place the statistic is computed, reports 99. -/
theorem profitFactor_sentinel_counterexample :
    serverProfitFactor [exWin] = 999/10 ∧ ajProfitFactor [exWin] = 99 ∧
    (99 : ℚ) ≠ 999/10 := by
  refine ⟨?_, ?_, by norm_num⟩
  · norm_num [serverProfitFactor, serverFinalAcc, serverClosedSorted, closedTradesOf,
      sortByEntryDate, List.insertionSort, List.orderedInsert, statsRun, statsStep,
      statsPnl, statsAcc0, exWin, baseTrade]
  · norm_num [ajProfitFactor, ajGrossLoss, ajGrossProfit, ajPnls, activeTrades,
      sortByEntryDate, List.insertionSort, List.orderedInsert, statsPnl, exWin, baseTrade]

/-- C6 amended: both profit-factor computations guard a zero gross-loss
sum, returning a sentinel when the gross profit sum is positive and 0
when it is also 0, and otherwise divide the gross profit sum by the
absolute gross loss sum; the sentinel is 99.9 (with the quotient rounded
to two decimals) in the server stats route but 99 (unrounded quotient)
in the active-journal page. -/
theorem profitFactor_zero_loss (trades : List Trade) :
    (serverFinalAcc trades).grossProfit = specGrossProfitSum trades ∧
    (serverFinalAcc trades).grossLoss = specGrossLossSum trades ∧
    (specGrossLossSum trades = 0 →
      serverProfitFactor trades = if specGrossProfitSum trades > 0 then 999/10 else 0) ∧
    (specGrossLossSum trades ≠ 0 →
      serverProfitFactor trades = round2 (specGrossProfitSum trades / |specGrossLossSum trades|)) ∧
    (ajGrossLoss trades = 0 → ajProfitFactor trades = if ajGrossProfit trades > 0 then 99 else 0) ∧
    (ajGrossLoss trades ≠ 0 →
      ajProfitFactor trades = ajGrossProfit trades / |ajGrossLoss trades|) := by
  have hp : (serverFinalAcc trades).grossProfit = specGrossProfitSum trades := by
    rw [serverFinalAcc, statsRun_fst_grossProfit]
    simp [statsAcc0, specGrossProfitSum]
  have hl : (serverFinalAcc trades).grossLoss = specGrossLossSum trades := by
    rw [serverFinalAcc, statsRun_fst_grossLoss]
    simp [statsAcc0, specGrossLossSum, sum_abs_filter_neg]
  have habs : |specGrossLossSum trades| = specGrossLossSum trades := by
    rw [specGrossLossSum]
    exact abs_abs _
  have habs2 : |ajGrossLoss trades| = ajGrossLoss trades := by
    rw [ajGrossLoss]
    exact abs_abs _
  refine ⟨hp, hl, ?_, ?_, ?_, ?_⟩
  · intro h0
    simp [serverProfitFactor, hp, hl, h0]
  · intro hne
    simp [serverProfitFactor, hp, hl, hne, habs]
  · intro h0
    simp [ajProfitFactor, h0]
  · intro hne
    simp [ajProfitFactor, hne, habs2]

/-- Witness for C6: the single-winner store hits the zero-loss branch of
both computations. -/
theorem profitFactor_zero_loss_witness :
    specGrossLossSum [exWin] = 0 ∧ ajGrossLoss [exWin] = 0 ∧
    serverProfitFactor [exWin] = (if specGrossProfitSum [exWin] > 0 then 999/10 else 0) ∧
    ajProfitFactor [exWin] = (if ajGrossProfit [exWin] > 0 then 99 else 0) := by
  have h1 : specGrossLossSum [exWin] = 0 := by
    norm_num [specGrossLossSum, serverClosedSorted, closedTradesOf, sortByEntryDate,
      List.insertionSort, List.orderedInsert, statsPnl, exWin, baseTrade]
  have h2 : ajGrossLoss [exWin] = 0 := by
    norm_num [ajGrossLoss, ajPnls, activeTrades, sortByEntryDate, List.insertionSort,
      List.orderedInsert, statsPnl, exWin, baseTrade]
  exact ⟨h1, h2, (profitFactor_zero_loss [exWin]).2.2.1 h1,
    (profitFactor_zero_loss [exWin]).2.2.2.2.1 h2⟩

/-- C8 counterexample: a lone orphan child (parent id 99 absent) is kept
as a root row by the master-ledger page, but the dashboard master-ledger
component files it in neither mainTrades nor processedTrades, so it is
dropped from that display. -/
theorem orphan_root_rows_counterexample :
    compMainTrades [exOrphan] = [] ∧ compProcessedTrades [exOrphan] = [] ∧
    (mainInitialData exCtx exFilters [exOrphan]).map (fun r => r.trade.id) = [5] := by
  refine ⟨?_, ?_, ?_⟩
  · simp [compMainTrades, jsTruthyId, exOrphan, baseTrade]
  · simp [compProcessedTrades, compMainTrades, jsTruthyId, exOrphan, baseTrade]
  · have h1 : filteredTrades exFilters [exOrphan] = [exOrphan] := by
      simp [filteredTrades, activeTrades, tradeMatches, containsSub_blank, exFilters,
        exOrphan, baseTrade]
    simp only [mainInitialData, initialData, existingTradeIds, h1]
    simp [sortByEntryDate, List.insertionSort, List.orderedInsert, ledgerRows, ledgerRow,
      rowRoot, jsTruthyId, exCtx, exOrphan, baseTrade]

/-- C8 amended: in the master-ledger page every row whose trade has a
null parent reference, and every orphan row whose parent id resolves to
no trade of the filtered set, is kept as a root row; the dashboard
master-ledger component instead keeps only trades with a null (or 0,
by JavaScript falsiness) parent reference as root rows, so an orphan
child is not rendered there. -/
theorem orphan_root_rows :
    (∀ (ctx : PriceCtx) (f : LedgerFilters) (trades : List Trade) (r : Row),
      r ∈ initialData ctx f trades →
      (∀ p, r.trade.parentTradeId = some p → p ∉ existingTradeIds f trades) →
      r ∈ mainInitialData ctx f trades) ∧
    (∀ (trades : List Trade) (t : Trade),
      t ∈ compMainTrades trades ↔ t ∈ trades ∧ jsTruthyId t.parentTradeId = false) ∧
    (∀ (trades : List Trade) (t : Trade) (p : Nat),
      t ∈ trades → t.parentTradeId = some p → p ≠ 0 → t ∉ compMainTrades trades) := by
  refine ⟨?_, ?_, ?_⟩
  · intro ctx f trades r hr hslf
    apply List.mem_filter.mpr
    refine ⟨hr, ?_⟩
    rw [rowRoot]
    cases hpid : r.trade.parentTradeId with
    | none => simp [jsTruthyId]
    | some p =>
        by_cases hp0 : p = 0
        · simp [jsTruthyId, hp0]
        · have hnot : p ∉ existingTradeIds f trades := hslf p hpid
          simp [jsTruthyId, hp0, hnot]
  · intro trades t
    simp [compMainTrades, List.mem_filter]
  · intro trades t p hmem hpid hp0
    simp [compMainTrades, List.mem_filter, hpid, jsTruthyId, hp0]

/-- Witness for C8: the orphan child is excluded from the component root
rows. -/
theorem orphan_root_rows_witness :
    exOrphan.parentTradeId = some 99 ∧ (99 : Nat) ≠ 0 ∧
    exOrphan ∉ compMainTrades [exOrphan] :=
  ⟨rfl, by norm_num, orphan_root_rows.2.2 [exOrphan] exOrphan 99 (by simp) rfl (by norm_num)⟩

theorem closeTrade_notFound (s : Store) (id : Nat) (req : CloseReq)
    (h : getTrade s id = none) : closeTrade s id req = (CloseOutcome.notFound, s) := by
  simp [closeTrade, h]

theorem closeTrade_reject (s : Store) (id : Nat) (req : CloseReq) (root : Trade)
    (hfind : getTrade s id = some root) (hgt : req.quantity > root.quantity) :
    closeTrade s id req = (CloseOutcome.validationError, s) := by
  simp [closeTrade, hfind, hgt]

theorem closeTrade_fst_ok (s : Store) (id : Nat) (req : CloseReq) (root : Trade)
    (hfind : getTrade s id = some root) (hle : req.quantity ≤ root.quantity) :
    (closeTrade s id req).1 = CloseOutcome.ok (closedChild s id req root) := by
  have hng : ¬ (req.quantity > root.quantity) := not_lt.mpr hle
  by_cases heq : req.quantity = root.quantity <;>
    simp [closeTrade, hfind, hng, heq, createTrade, closedChild]

theorem getTrade_delete (s : Store) (id : Nat) : getTrade (deleteTrade s id) id = none := by
  rw [getTrade, deleteTrade]
  apply List.find?_eq_none.mpr
  intro x hx
  have hx2 := (List.mem_filter.mp hx).2
  simp at hx2 ⊢
  exact hx2

theorem getTrade_append (s : Store) (c : Trade) (id : Nat) (root : Trade)
    (hfind : getTrade s id = some root) :
    (s.trades ++ [c]).find? (fun t => t.id = id) = some root := by
  rw [getTrade] at hfind
  rw [List.find?_append, hfind]
  rfl

theorem getTrade_update (s : Store) (id : Nat) (q : ℚ) (root : Trade)
    (hfind : getTrade s id = some root) :
    getTrade (updateTradeQuantity s id q) id = some { root with quantity := q } := by
  have hrootid : root.id = id := by
    have h := List.find?_some (by rw [getTrade] at hfind; exact hfind)
    simpa using h
  rw [getTrade, updateTradeQuantity]
  rw [List.find?_map]
  have hpred : ((fun t => decide (t.id = id)) ∘
      (fun t => if t.id = id then { t with quantity := q } else t))
      = (fun t : Trade => decide (t.id = id)) := by
    funext t
    by_cases h : t.id = id <;> simp [h]
  rw [hpred]
  rw [getTrade] at hfind
  rw [hfind]
  simp [hrootid]

theorem closeTrade_full_root_gone (s : Store) (id : Nat) (req : CloseReq) (root : Trade)
    (hfind : getTrade s id = some root) (heq : req.quantity = root.quantity) :
    getTrade (closeTrade s id req).2 id = none := by
  have hng : ¬ (req.quantity > root.quantity) := not_lt.mpr (le_of_eq heq)
  simp [closeTrade, hfind, hng, heq, getTrade_delete]

theorem closeTrade_partial_root (s : Store) (id : Nat) (req : CloseReq) (root : Trade)
    (hfind : getTrade s id = some root) (hlt : req.quantity < root.quantity) :
    getTrade (closeTrade s id req).2 id =
      some { root with quantity := root.quantity - req.quantity } := by
  have hng : ¬ (req.quantity > root.quantity) := not_lt.mpr hlt.le
  have hne : ¬ (req.quantity = root.quantity) := ne_of_lt hlt
  have hmid : getTrade
      { trades := s.trades ++ [closedChild s id req root]
        nextId := s.nextId + 1 } id = some root := by
    rw [getTrade]
    exact getTrade_append s (closedChild s id req root) id root hfind
  simp only [closeTrade, hfind, hng, hne, if_false, ite_false, createTrade]
  exact getTrade_update _ id _ root hmid

/-- C3 counterexample: partially closing an existing CLOSED root (stored
quantity 2, sell 1) leaves the root with status CLOSED, not OPEN as the
claim states for every existing trade; the handler only rewrites the
quantity field. -/
theorem close_effect_counterexample :
    ((getTrade (closeTrade exStoreClosed 1 exReq1).2 1).map Trade.status
      = some Status.CLOSED) ∧
    some Status.CLOSED ≠ some Status.OPEN := by
  refine ⟨?_, by simp⟩
  norm_num [closeTrade, getTrade, createTrade, updateTradeQuantity, deleteTrade,
    exStoreClosed, exReq1, baseTrade, List.find?]

/-- C3 amended: a close of quantity q at most the stored quantity Q
creates the CLOSED child copying the root with quantity q, the given sell
price and exit date, fees equal to the root fees plus the request fees,
and parentTradeId = the root id; when q = Q the root is deleted, and
when q < Q the root keeps every other field (its status in particular,
so it stays OPEN exactly when it was OPEN) with stored quantity Q - q. -/
theorem close_effect (s : Store) (id : Nat) (req : CloseReq) (root : Trade)
    (hfind : getTrade s id = some root) (hle : req.quantity ≤ root.quantity) :
    (closeTrade s id req).1 = CloseOutcome.ok (closedChild s id req root) ∧
    (req.quantity = root.quantity → getTrade (closeTrade s id req).2 id = none) ∧
    (req.quantity < root.quantity →
      getTrade (closeTrade s id req).2 id =
        some { root with quantity := root.quantity - req.quantity }) ∧
    (req.quantity < root.quantity →
      (getTrade (closeTrade s id req).2 id).map Trade.status = some root.status) := by
  refine ⟨closeTrade_fst_ok s id req root hfind hle, ?_, ?_, ?_⟩
  · intro heq
    exact closeTrade_full_root_gone s id req root hfind heq
  · intro hlt
    exact closeTrade_partial_root s id req root hfind hlt
  · intro hlt
    rw [closeTrade_partial_root s id req root hfind hlt]
    rfl

/-- Witness for C3: partially closing 4 of the 10-lot open root leaves it
with quantity 6 and creates the closed child. -/
theorem close_effect_witness :
    getTrade exStoreOpen 1 = some baseTrade ∧
    exReq4.quantity ≤ baseTrade.quantity ∧
    (closeTrade exStoreOpen 1 exReq4).1 =
      CloseOutcome.ok (closedChild exStoreOpen 1 exReq4 baseTrade) ∧
    getTrade (closeTrade exStoreOpen 1 exReq4).2 1 = some { baseTrade with quantity := 6 } := by
  have hfind : getTrade exStoreOpen 1 = some baseTrade := rfl
  have hle : exReq4.quantity ≤ baseTrade.quantity := by norm_num [exReq4, baseTrade]
  have h := close_effect exStoreOpen 1 exReq4 baseTrade hfind hle
  refine ⟨hfind, hle, h.1, ?_⟩
  rw [h.2.2.1 (by norm_num [exReq4, baseTrade])]
  norm_num [baseTrade, exReq4]

/-- C4: a close whose sell quantity exceeds the stored quantity is
rejected as a validation failure and the store is left exactly as it
was: no child is created, the root is neither updated nor deleted. -/
theorem close_oversell_rejected (s : Store) (id : Nat) (req : CloseReq) (root : Trade)
    (hfind : getTrade s id = some root) (hgt : req.quantity > root.quantity) :
    (closeTrade s id req).1 = CloseOutcome.validationError ∧
    (closeTrade s id req).2 = s := by
  rw [closeTrade_reject s id req root hfind hgt]
  exact ⟨rfl, rfl⟩

/-- Witness for C4: selling 11 of a 10-lot trade is rejected and the
store is unchanged. -/
theorem close_oversell_rejected_witness :
    getTrade exStoreOpen 1 = some baseTrade ∧
    exReqTooBig.quantity > baseTrade.quantity ∧
    (closeTrade exStoreOpen 1 exReqTooBig).1 = CloseOutcome.validationError ∧
    (closeTrade exStoreOpen 1 exReqTooBig).2 = exStoreOpen := by
  have hfind : getTrade exStoreOpen 1 = some baseTrade := rfl
  have hgt : exReqTooBig.quantity > baseTrade.quantity := by norm_num [exReqTooBig, baseTrade]
  have h := close_oversell_rejected exStoreOpen 1 exReqTooBig baseTrade hfind hgt
  exact ⟨hfind, hgt, h.1, h.2⟩

/-- C10 counterexample: closing quantity 0 of a root whose stored
quantity is 0 is accepted (neither not-found nor a validation error), but
the root is deleted by the full-sell branch instead of being kept with
its stored quantity increased by |0| = 0. -/
theorem close_validation_only_counterexample :
    (closeTrade exStoreZero 1 exReqZero).1 ≠ CloseOutcome.notFound ∧
    (closeTrade exStoreZero 1 exReqZero).1 ≠ CloseOutcome.validationError ∧
    getTrade (closeTrade exStoreZero 1 exReqZero).2 1 = none := by
  refine ⟨?_, ?_, ?_⟩ <;>
    norm_num [closeTrade, getTrade, createTrade, deleteTrade, updateTradeQuantity,
      exStoreZero, exReqZero, baseTrade, List.find?] <;>
    simp

/-- C10 amended: with a schema-valid body, the close handler fails
exactly on a missing trade id (not-found) or a sell quantity above the
stored quantity (validation); it checks neither the status nor the sign
of the quantity, so any existing trade (CLOSED ones included) accepts a
zero or negative quantity q with q at most the stored quantity, creating
a CLOSED child of quantity q; when q is strictly below the stored
quantity the root quantity grows by |q|, while q equal to the stored
quantity (possible for q = 0 on a zero-quantity root) deletes the root
as a full close. -/
theorem close_validation_only (s : Store) (id : Nat) (req : CloseReq) :
    ((closeTrade s id req).1 = CloseOutcome.notFound ↔ getTrade s id = none) ∧
    (∀ root, getTrade s id = some root →
      (((closeTrade s id req).1 = CloseOutcome.validationError) ↔
        req.quantity > root.quantity) ∧
      (req.quantity ≤ root.quantity →
        (closeTrade s id req).1 = CloseOutcome.ok (closedChild s id req root)) ∧
      (req.quantity ≤ 0 → req.quantity < root.quantity →
        getTrade (closeTrade s id req).2 id =
          some { root with quantity := root.quantity + |req.quantity| })) := by
  constructor
  · constructor
    · intro h1
      cases hg : getTrade s id with
      | none => rfl
      | some root =>
          by_cases hgt : req.quantity > root.quantity
          · rw [closeTrade_reject s id req root hg hgt] at h1
            exact absurd h1 (by simp)
          · rw [closeTrade_fst_ok s id req root hg (not_lt.mp hgt)] at h1
            exact absurd h1 (by simp)
    · intro h
      rw [closeTrade_notFound s id req h]
  · intro root hfind
    refine ⟨⟨?_, ?_⟩, ?_, ?_⟩
    · intro h1
      by_contra hgt
      rw [closeTrade_fst_ok s id req root hfind (not_lt.mp hgt)] at h1
      exact absurd h1 (by simp)
    · intro hgt
      rw [closeTrade_reject s id req root hfind hgt]
    · intro hle
      exact closeTrade_fst_ok s id req root hfind hle
    · intro hq0 hlt
      rw [closeTrade_partial_root s id req root hfind hlt]
      have habs : |req.quantity| = -req.quantity := abs_of_nonpos hq0
      rw [habs]
      ring_nf

/-- Witness for C10: closing quantity -3 of the open 10-lot root is
accepted and bumps the stored quantity to 13. -/
theorem close_validation_only_witness :
    getTrade exStoreOpen 1 = some baseTrade ∧
    exReqNeg.quantity ≤ 0 ∧ exReqNeg.quantity < baseTrade.quantity ∧
    getTrade (closeTrade exStoreOpen 1 exReqNeg).2 1 =
      some { baseTrade with quantity := baseTrade.quantity + |exReqNeg.quantity| } := by
  have hfind : getTrade exStoreOpen 1 = some baseTrade := rfl
  have h := (close_validation_only exStoreOpen 1 exReqNeg).2 baseTrade hfind
  exact ⟨hfind, by norm_num [exReqNeg], by norm_num [exReqNeg, baseTrade],
    h.2.2 (by norm_num [exReqNeg]) (by norm_num [exReqNeg, baseTrade])⟩

theorem updF_id (id₀ : Nat) (q : ℚ) (t : Trade) :
    (if t.id = id₀ then { t with quantity := q } else t).id = t.id := by
  split <;> rfl

theorem updF_parent (id₀ : Nat) (q : ℚ) (t : Trade) :
    (if t.id = id₀ then { t with quantity := q } else t).parentTradeId = t.parentTradeId := by
  split <;> rfl

theorem childSumL_append (l₁ l₂ : List Trade) (r : Nat) :
    childSumL (l₁ ++ l₂) r = childSumL l₁ r + childSumL l₂ r := by
  simp [childSumL, List.filter_append]

theorem childSumL_update (l : List Trade) (r id₀ : Nat) (q : ℚ)
    (h : ∀ t ∈ l, t.parentTradeId = some r → t.id ≠ id₀) :
    childSumL (l.map (fun t => if t.id = id₀ then { t with quantity := q } else t)) r
      = childSumL l r := by
  simp only [childSumL]
  rw [List.filter_map]
  have hpred : ((fun t => decide (t.parentTradeId = some r)) ∘
      (fun t => if t.id = id₀ then { t with quantity := q } else t))
      = (fun t : Trade => decide (t.parentTradeId = some r)) := by
    funext t
    by_cases ht : t.id = id₀ <;> simp [ht]
  rw [hpred, List.map_map]
  congr 1
  apply List.map_congr_left
  intro t ht
  have hmem := List.mem_filter.mp ht
  have hpar : t.parentTradeId = some r := by simpa using hmem.2
  have hne : t.id ≠ id₀ := h t hmem.1 hpar
  simp [Function.comp, hne]

theorem childSumL_delete (l : List Trade) (r id₀ : Nat)
    (h : ∀ t ∈ l, t.parentTradeId = some r → t.id ≠ id₀) :
    childSumL (l.filter (fun t => t.id ≠ id₀)) r = childSumL l r := by
  simp only [childSumL]
  rw [List.filter_filter]
  congr 2
  apply List.filter_congr
  intro t ht
  by_cases hpar : t.parentTradeId = some r
  · simp [hpar, h t ht hpar]
  · simp [hpar]

theorem childQtySum_eq (s : Store) (r : Nat) : childQtySum s r = childSumL s.trades r := rfl

theorem childSumL_single (c : Trade) (r : Nat) (h : c.parentTradeId = some r) :
    childSumL [c] r = c.quantity := by
  simp [childSumL, List.filter_cons, h]

theorem closeTrade_snd_full (s : Store) (id : Nat) (req : CloseReq) (root : Trade)
    (hfind : getTrade s id = some root) (heq : req.quantity = root.quantity) :
    (closeTrade s id req).2 =
      deleteTrade ⟨s.trades ++ [closedChild s id req root], s.nextId + 1⟩ id := by
  have hng : ¬ (req.quantity > root.quantity) := not_lt.mpr (le_of_eq heq)
  simp [closeTrade, hfind, hng, heq, createTrade, closedChild]

theorem closeTrade_snd_shrink (s : Store) (id : Nat) (req : CloseReq) (root : Trade)
    (hfind : getTrade s id = some root) (hlt : req.quantity < root.quantity) :
    (closeTrade s id req).2 =
      updateTradeQuantity ⟨s.trades ++ [closedChild s id req root], s.nextId + 1⟩ id
        (root.quantity - req.quantity) := by
  have hng : ¬ (req.quantity > root.quantity) := not_lt.mpr hlt.le
  have hne : req.quantity ≠ root.quantity := ne_of_lt hlt
  simp [closeTrade, hfind, hng, hne, createTrade, closedChild]

theorem campInv_step (r : Nat) (q0 orig : ℚ) (s : Store) (req : CloseReq)
    (hinv : CampInv r q0 orig s) : CampInv r q0 orig (closeTrade s r req).2 := by
  obtain ⟨⟨hidlt, hnodup⟩, hroots, htotal, hqty⟩ := hinv
  cases hfind : getTrade s r with
  | none =>
      rw [closeTrade_notFound s r req hfind]
      exact ⟨⟨hidlt, hnodup⟩, hroots, htotal, hqty⟩
  | some root =>
      have hfind' : s.trades.find? (fun t => t.id = r) = some root := by
        rw [getTrade] at hfind
        exact hfind
      have hrootmem : root ∈ s.trades := List.mem_of_find?_eq_some hfind'
      have hrootid : root.id = r := by simpa using List.find?_some hfind'
      have hrlt : r < s.nextId := hrootid ▸ hidlt root hrootmem
      have hrootqty : rootQty s r = root.quantity := by simp [rootQty, hfind]
      have hq0 : q0 = childSumL s.trades r + root.quantity := by
        rw [← htotal, campaignTotal, childQtySum_eq, hrootqty]
      by_cases hgt : req.quantity > root.quantity
      · rw [closeTrade_reject s r req root hfind hgt]
        exact ⟨⟨hidlt, hnodup⟩, hroots, htotal, hqty⟩
      · have hle : req.quantity ≤ root.quantity := not_lt.mp hgt
        have hcparent : (closedChild s r req root).parentTradeId = some r := rfl
        have hcid : (closedChild s r req root).id = s.nextId := rfl
        have hcq : (closedChild s r req root).quantity = req.quantity := rfl
        have happrem : ∀ t ∈ s.trades ++ [closedChild s r req root],
            t.parentTradeId = some r → t.id ≠ r := by
          intro t ht hpar
          rcases List.mem_append.mp ht with h1 | h1
          · intro hid
            rw [hroots t h1 hid] at hpar
            cases hpar
          · have heqc : t = closedChild s r req root := by simpa using h1
            subst heqc
            rw [hcid]
            exact Nat.ne_of_gt hrlt
        have hidlt_app : ∀ t ∈ s.trades ++ [closedChild s r req root],
            t.id < s.nextId + 1 := by
          intro t ht
          rcases List.mem_append.mp ht with h1 | h1
          · exact Nat.lt_succ_of_lt (hidlt t h1)
          · have heqc : t = closedChild s r req root := by simpa using h1
            subst heqc
            rw [hcid]
            exact Nat.lt_succ_self _
        have hnodup_app : ((s.trades ++ [closedChild s r req root]).map Trade.id).Nodup := by
          rw [List.map_append]
          refine List.Nodup.append hnodup (by simp) ?_
          intro a ha hb
          rcases List.mem_map.mp ha with ⟨u, hu, hua⟩
          have h1 : a < s.nextId := hua ▸ hidlt u hu
          have h2 : a = s.nextId := by simpa [hcid] using hb
          omega
        have hsumapp : childSumL (s.trades ++ [closedChild s r req root]) r
            = childSumL s.trades r + req.quantity := by
          rw [childSumL_append, childSumL_single _ _ hcparent, hcq]
        by_cases heq : req.quantity = root.quantity
        · rw [closeTrade_snd_full s r req root hfind heq]
          refine ⟨⟨?_, ?_⟩, ?_, ?_, ?_⟩
          · intro t ht
            exact hidlt_app t (List.mem_of_mem_filter ht)
          · exact List.Nodup.sublist ((List.filter_sublist _).map Trade.id) hnodup_app
          · intro t ht hid
            have htmem := List.mem_of_mem_filter ht
            rcases List.mem_append.mp htmem with h1 | h1
            · exact hroots t h1 hid
            · have heqc : t = closedChild s r req root := by simpa using h1
              subst heqc
              rw [hcid] at hid
              exact absurd hid (Nat.ne_of_gt hrlt)
          · rw [campaignTotal, childQtySum_eq, rootQty, getTrade_delete]
            show childSumL ((s.trades ++ [closedChild s r req root]).filter
              (fun t => t.id ≠ r)) r + 0 = q0
            rw [childSumL_delete _ _ _ happrem, hsumapp, hq0, heq]
            ring
          · intro t ht
            rw [getTrade_delete] at ht
            cases ht
        · have hlt : req.quantity < root.quantity := lt_of_le_of_ne hle heq
          rw [closeTrade_snd_shrink s r req root hfind hlt]
          have hmid : getTrade (⟨s.trades ++ [closedChild s r req root], s.nextId + 1⟩ : Store) r
              = some root := by
            rw [getTrade]
            exact getTrade_append s (closedChild s r req root) r root hfind
          have hup := getTrade_update
            (⟨s.trades ++ [closedChild s r req root], s.nextId + 1⟩ : Store) r
            (root.quantity - req.quantity) root hmid
          refine ⟨⟨?_, ?_⟩, ?_, ?_, ?_⟩
          · intro t ht
            rcases List.mem_map.mp ht with ⟨u, hu, hut⟩
            rw [← hut, updF_id]
            exact hidlt_app u hu
          · show (((s.trades ++ [closedChild s r req root]).map
              (fun t => if t.id = r then { t with quantity := root.quantity - req.quantity }
                else t)).map Trade.id).Nodup
            rw [List.map_map]
            have hcomp : (Trade.id ∘ (fun t => if t.id = r
                then { t with quantity := root.quantity - req.quantity } else t)) = Trade.id := by
              funext t
              exact updF_id r (root.quantity - req.quantity) t
            rw [hcomp]
            exact hnodup_app
          · intro t ht hid
            rcases List.mem_map.mp ht with ⟨u, hu, hut⟩
            rw [← hut, updF_parent]
            rw [← hut, updF_id] at hid
            rcases List.mem_append.mp hu with h1 | h1
            · exact hroots u h1 hid
            · have heqc : u = closedChild s r req root := by simpa using h1
              subst heqc
              rw [hcid] at hid
              exact absurd hid (Nat.ne_of_gt hrlt)
          · rw [campaignTotal, childQtySum_eq, rootQty, hup]
            show childSumL ((s.trades ++ [closedChild s r req root]).map
              (fun t => if t.id = r then { t with quantity := root.quantity - req.quantity }
                else t)) r + (root.quantity - req.quantity) = q0
            rw [childSumL_update _ _ _ _ happrem, hsumapp, hq0]
            ring
          · intro t ht
            rw [hup] at ht
            injection ht with hteq
            right
            rw [← hteq]
            show 0 < root.quantity - req.quantity
            exact sub_pos.mpr hlt

theorem campInv_applyCloses (r : Nat) (q0 orig : ℚ) (reqs : List CloseReq) :
    ∀ s : Store, CampInv r q0 orig s → CampInv r q0 orig (applyCloses s r reqs) := by
  induction reqs with
  | nil => intro s h; exact h
  | cons req rest ih =>
      intro s h
      exact ih _ (campInv_step r q0 orig s req h)

/-- C2: over any sequence of close requests aimed at a root trade, the
campaign total recovered by the aggregator (sum of child quantities plus
the stored remaining quantity of the root, 0 once deleted) never
changes; in particular once the root is gone the child quantities alone
sum to the original total, and while the root is present its remaining
quantity is either untouched or strictly positive, so the remainder
reaches 0 only through deletion of the root by a full close.  Every
prefix of the sequence is itself such a sequence, so the conservation
holds at every intermediate point as well. -/
theorem quantity_conservation (s : Store) (r : Nat) (root : Trade) (reqs : List CloseReq)
    (hwf : StoreWF s) (hfind : getTrade s r = some root)
    (hroots : ∀ t ∈ s.trades, t.id = r → t.parentTradeId = none) :
    campaignTotal (applyCloses s r reqs) r = campaignTotal s r ∧
    (getTrade (applyCloses s r reqs) r = none →
      childQtySum (applyCloses s r reqs) r = campaignTotal s r) ∧
    (∀ t, getTrade (applyCloses s r reqs) r = some t →
      t.quantity = root.quantity ∨ 0 < t.quantity) := by
  have hinv0 : CampInv r (campaignTotal s r) root.quantity s := by
    refine ⟨hwf, hroots, rfl, ?_⟩
    intro t ht
    rw [hfind] at ht
    injection ht with h
    exact Or.inl (by rw [← h])
  obtain ⟨hwf', hroots', htotal', hqty'⟩ :=
    campInv_applyCloses r (campaignTotal s r) root.quantity reqs s hinv0
  refine ⟨htotal', ?_, hqty'⟩
  intro hnone
  have hzero : campaignTotal (applyCloses s r reqs) r
      = childQtySum (applyCloses s r reqs) r := by
    simp [campaignTotal, rootQty, hnone]
  rw [← hzero, htotal']

/-- Witness for C2: partially closing 4 then fully closing the remaining
6 of the 10-lot root preserves the campaign total. -/
theorem quantity_conservation_witness :
    StoreWF exStoreOpen ∧
    getTrade exStoreOpen 1 = some baseTrade ∧
    campaignTotal (applyCloses exStoreOpen 1 [exReq4, exReq6]) 1
      = campaignTotal exStoreOpen 1 := by
  have hwf : StoreWF exStoreOpen := by simp [StoreWF, exStoreOpen, baseTrade]
  have hfind : getTrade exStoreOpen 1 = some baseTrade := rfl
  have hroots : ∀ t ∈ exStoreOpen.trades, t.id = 1 → t.parentTradeId = none := by
    intro t ht _
    have hteq : t = baseTrade := by simpa [exStoreOpen] using ht
    rw [hteq]
    rfl
  exact ⟨hwf, hfind,
    (quantity_conservation exStoreOpen 1 baseTrade [exReq4, exReq6] hwf hfind hroots).1⟩
